import Mathlib

/-
Verification of the flow-builder / flow-simulator core of the Super repository.

The development shallowly embeds:
* `FlowSimulator.tsx` (src/unnamed/part_005): the simulation controller
  (`executeNextStep`, `startSimulation`, `pauseSimulation`, `stopSimulation`,
  `jumpToStep`) and the fake-connector `simulateNodeExecution`.
* `FlowBuilder.tsx` (src/admin-web/.../FlowBuilder/FlowBuilder.tsx): the editor
  state (`deleteNode`, `undo`, `redo`, `saveToHistory`, `handlePublish`).

Every call to `Math.random()` / `Date.now()` / `new Date().toISOString()` in the
source is modelled by an explicit per-step oracle (`StepOracle`) supplying the
drawn values, so all definitions are pure and executable.
-/

namespace Super

/-- Status of one execution step, from the `ExecutionStep` interface in
FlowSimulator.tsx: `'pending' | 'running' | 'completed' | 'failed' | 'skipped'`. -/
inductive StepStatus
  | pending
  | running
  | completed
  | failed
  | skipped
  deriving DecidableEq

/-- Condition operators, from the `ConditionNodeData` interface in
ConditionNode.tsx: `'equals' | 'not_equals' | 'greater_than' | 'less_than' |
'contains' | 'exists'`. -/
inductive CondOperator
  | equals
  | not_equals
  | greater_than
  | less_than
  | contains
  | exists_
  deriving DecidableEq

/-- Value of a flow variable or of a condition's comparison constant
(`value: string | number` in ConditionNode.tsx; booleans appear in outputs). -/
inductive VarValue
  | str (s : String)
  | num (q : ℚ)
  | bool (b : Bool)
  deriving DecidableEq

/-- Condition configuration `{field, operator, value}` carried in a condition
node's `data.condition` (ConditionNode.tsx / getDefaultNodeData). -/
structure CondConfig where
  field : String
  operator : CondOperator
  value : VarValue
  deriving DecidableEq

/-- A react-flow node as the builder and simulator use it: `id`, `type`
(a string such as "start", "condition", ...), `data.label`, and for condition
nodes `data.condition`. `position` is opaque to the core. -/
structure FlowNode where
  id : String
  type : String
  label : Option String := none
  condition : Option CondConfig := none
  position : Int × Int := (0, 0)
  deriving DecidableEq

/-- A react-flow edge: `id`, `source`, `target`, and the named source port
(`sourceHandle`, e.g. "true"/"false" on a condition node, "success"/"failure"
on a payment node). -/
structure FlowEdge where
  id : String
  source : String
  target : String
  sourceHandle : Option String := none
  label : Option String := none
  deriving DecidableEq

/-- Line item of the synthetic test payload (`SimulationData.items`). -/
structure SimItem where
  name : String
  quantity : Nat
  price : ℚ
  deriving DecidableEq

/-- Synthetic test payload of the simulator (`SimulationData` interface in
FlowSimulator.tsx). -/
structure SimulationData where
  orderId : String
  customerId : String
  merchantId : String
  amount : ℚ
  items : List SimItem
  customerPhone : String
  merchantPhone : String
  timestamp : String
  deriving DecidableEq

/-- Output object produced by `simulateNodeExecution`, one constructor per
object literal in the TypeScript `switch` (field names match the literals). -/
inductive SimOutput
  | startOut (flowId : String) (startTimeIso : String)
  | notifOut (messageId : String) (sent : Bool)
  | payOut (transactionId : String) (amount : ℚ) (status : String)
  | condOut (condition : Bool) (branch : String)
  | actionOut (status : String) (processed : Bool) (statusCode : Nat)
  | endOut (completed : Bool) (endTimeIso : String)
  | defaultOut (nodeType : String) (processed : Bool)
  deriving DecidableEq

/-- One entry of the execution timeline (`ExecutionStep` interface).  The
TypeScript interface also declares an `input?` field, but no statement in the
source ever assigns it, so it is omitted here. -/
structure ExecutionStep where
  id : String
  nodeId : String
  nodeName : String
  status : StepStatus
  startTime : Option Int := none
  endTime : Option Int := none
  duration : Option Int := none
  output : Option SimOutput := none
  error : Option String := none
  logs : List String := []
  deriving DecidableEq

/-- Values drawn from the environment during one `executeNextStep` call:
each `Math.random()`, `Date.now()` and `new Date().toISOString()` of the
source becomes one explicit field. -/
structure StepOracle where
  rSuccess : ℚ
  rDuration : ℚ
  rCond : ℚ
  rId : String
  isoNow : String
  tStart : Int
  tEnd : Int
  deriving DecidableEq

/-- Result object of `simulateNodeExecution`: `{output, error?, logs}`. -/
structure SimResult where
  output : Option SimOutput
  error : Option String
  logs : List String
  deriving DecidableEq

/-- Plain-text rendering of a rational, used where the source interpolates
`data.amount` into a log string. -/
def ratText (q : ℚ) : String :=
  if q.den = 1 then toString q.num else toString q.num ++ "/" ++ toString q.den

/-- Faithful translation of the helper `simulateNodeExecution(node, data)` of
FlowSimulator.tsx (lines 503-582).  The random draws inside it (`Math.random()`
for ids and for the condition coin flip) and `new Date().toISOString()` come
from the oracle.  Note the `'condition'` case ignores both the node's
`data.condition` config and the simulation variables: it draws
`Math.random() > 0.5`. -/
def simulateNodeExecution (node : Option FlowNode) (data : SimulationData)
    (o : StepOracle) : SimResult :=
  match node with
  | none => { output := none, error := some "Node not found", logs := ["Error: Node not found"] }
  | some n =>
    match n.type with
    | "start" =>
      let oid := data.orderId
      { output := some (.startOut "flow-123" o.isoNow),
        error := none,
        logs := ["Flow execution started", s!"Processing order {oid}"] }
    | "notification" =>
      let phone := data.customerPhone
      { output := some (.notifOut ("msg-" ++ o.rId) true),
        error := none,
        logs := [s!"Sending notification to {phone}",
                 "SMS gateway connection established",
                 "Message queued for delivery"] }
    | "payment" =>
      { output := some (.payOut ("txn-" ++ o.rId) data.amount "completed"),
        error := none,
        logs := ["Processing payment of ₹" ++ ratText data.amount,
                 "UPI collect request initiated",
                 "Payment successful"] }
    | "condition" =>
      let condition : Bool := decide (mkRat 1 2 < o.rCond)
      { output := some (.condOut condition (if condition then "true" else "false")),
        error := none,
        logs := ["Evaluating condition: amount > 200",
                 s!"Condition result: {condition}"] }
    | "action" =>
      { output := some (.actionOut "success" true 200),
        error := none,
        logs := ["Executing HTTP request",
                 "Request sent to external API",
                 "Response received successfully"] }
    | "end" =>
      { output := some (.endOut true o.isoNow),
        error := none,
        logs := ["Flow execution completed", "Cleanup tasks performed"] }
    | t =>
      { output := some (.defaultOut t true),
        error := none,
        logs := [s!"Executing {t} node", "Processing completed"] }

/-- State of the FlowSimulator component: the `nodes`/`edges` props together
with the `executionSteps`, `currentStepIndex`, `isPlaying`, `playbackSpeed`
and `simulationData` pieces of React state. -/
structure SimState where
  nodes : List FlowNode
  edges : List FlowEdge
  data : SimulationData
  steps : List ExecutionStep
  currentStepIndex : Nat
  isPlaying : Bool
  playbackSpeed : ℚ
  deriving DecidableEq

/-- Step name shown on the timeline: `node.data?.label || node.type ||
'Unknown'` with JavaScript falsy semantics, so an empty label falls through. -/
def stepName (n : FlowNode) : String :=
  let fromType := if n.type = "" then "Unknown" else n.type
  match n.label with
  | some l => if l = "" then fromType else l
  | none => fromType

/-- Initial execution steps built from the flow nodes by the `useEffect` at
lines 90-101: one `pending` step per node, in node-array order. -/
def initSteps (nodes : List FlowNode) : List ExecutionStep :=
  nodes.enum.map (fun p =>
    let i := p.1
    { id := s!"step-{i}", nodeId := p.2.id, nodeName := stepName p.2,
      status := .pending, logs := [] })

/-- Initial simulator state for given props and test data (steps initialized,
index 0, not playing, speed 1). -/
def initState (nodes : List FlowNode) (edges : List FlowEdge)
    (data : SimulationData) : SimState :=
  { nodes := nodes, edges := edges, data := data, steps := initSteps nodes,
    currentStepIndex := 0, isPlaying := false, playbackSpeed := 1 }

/-- Index-aware map mirroring the TypeScript `prev.map((step, index) => ...)`
pattern; the extra argument is the index of the head of the remaining list. -/
def mapWithIndex (f : Nat → ExecutionStep → ExecutionStep) :
    Nat → List ExecutionStep → List ExecutionStep
  | _, [] => []
  | i, st :: rest => f i st :: mapWithIndex f (i + 1) rest

/-- Combined update applied to the current step by one `executeNextStep` call:
the `running` marking at lines 125-135 (start time, "Executing ..." log)
composed with the sealing update at lines 142-156 (`completed`/`failed`
status, end time, duration, output or error, result logs).  `success` is
`Math.random() > 0.1` and `duration` is `Math.floor(Math.random()*2000)+500`,
both read from the oracle.  A failed step keeps `error := result.error`,
which is `undefined` for every found node. -/
def sealStep (o : StepOracle) (nodes : List FlowNode) (data : SimulationData)
    (step : ExecutionStep) : ExecutionStep :=
  let success : Bool := decide (mkRat 1 10 < o.rSuccess)
  let dur : Int := (o.rDuration.mul 2000).floor + 500
  let node := nodes.find? (fun n => n.id == step.nodeId)
  let result := simulateNodeExecution node data o
  let name := step.nodeName
  { step with
    status := if success then .completed else .failed,
    startTime := some o.tStart,
    endTime := some o.tEnd,
    duration := some dur,
    output := if success then result.output else none,
    error := if success then none else result.error,
    logs := step.logs ++ [s!"Executing {name}..."] ++ result.logs
              ++ [if success then "Completed successfully" else "Execution failed"] }

/-- The `executeNextStep` callback (lines 116-160): when the index has run off
the end it only clears `isPlaying`; otherwise it seals the step at
`currentStepIndex` and advances the index by one — unconditionally, whether
the step succeeded or failed. -/
def executeNextStep (o : StepOracle) (s : SimState) : SimState :=
  if s.steps.length ≤ s.currentStepIndex then { s with isPlaying := false }
  else
    { s with
      steps := mapWithIndex
        (fun j st => if j = s.currentStepIndex then sealStep o s.nodes s.data st else st)
        0 s.steps,
      currentStepIndex := s.currentStepIndex + 1 }

/-- Field reset applied to every step by `stopSimulation` (and by
`startSimulation` when restarting): status back to `pending`, all timing,
output and error fields cleared, logs emptied. -/
def resetStep (st : ExecutionStep) : ExecutionStep :=
  { st with
    status := .pending, startTime := none, endTime := none,
    duration := none, output := none, error := none, logs := [] }

/-- The `startSimulation` control (lines 162-178): sets `isPlaying` and, when
the run had already finished (`currentStepIndex >= executionSteps.length`),
resets the index and all steps. -/
def startSimulation (s : SimState) : SimState :=
  if s.steps.length ≤ s.currentStepIndex then
    { s with isPlaying := true, currentStepIndex := 0, steps := s.steps.map resetStep }
  else { s with isPlaying := true }

/-- The `pauseSimulation` control (lines 180-182). -/
def pauseSimulation (s : SimState) : SimState :=
  { s with isPlaying := false }

/-- The `stopSimulation` control (lines 184-198): stops playback, rewinds the
index to 0 and resets every step. -/
def stopSimulation (s : SimState) : SimState :=
  { s with
    isPlaying := false, currentStepIndex := 0,
    steps := s.steps.map resetStep }

/-- The `jumpToStep` control (lines 200-203). -/
def jumpToStep (k : Nat) (s : SimState) : SimState :=
  { s with currentStepIndex := k, isPlaying := false }

/-- The `setPlaybackSpeed` control (speed buttons at lines 245-268). -/
def setPlaybackSpeed (q : ℚ) (s : SimState) : SimState :=
  { s with playbackSpeed := q }

/-- One user-or-timer-driven operation of the simulation controller. -/
inductive SimOp
  | play
  | pause
  | stop
  | jump (k : Nat)
  | exec (o : StepOracle)
  | speed (q : ℚ)

/-- Interpretation of a controller operation as a state transition. -/
def applyOp : SimOp → SimState → SimState
  | .play, s => startSimulation s
  | .pause, s => pauseSimulation s
  | .stop, s => stopSimulation s
  | .jump k, s => jumpToStep k s
  | .exec o, s => executeNextStep o s
  | .speed q, s => setPlaybackSpeed q s

/-- Run a whole sequence of controller operations. -/
def applyOps (ops : List SimOp) (s : SimState) : SimState :=
  ops.foldl (fun s op => applyOp op s) s

/-- Run a sequence of `executeNextStep` calls, one oracle per call (the
auto-play timer loop at lines 104-114 repeatedly firing). -/
def runExecs (os : List StepOracle) (s : SimState) : SimState :=
  os.foldl (fun s o => executeNextStep o s) s

/- Editor model: FlowBuilder.tsx -/

/-- One whole-graph history snapshot (`{ nodes, edges }`). -/
structure Snapshot where
  nodes : List FlowNode
  edges : List FlowEdge
  deriving DecidableEq

/-- Editor state of the FlowBuilder component: canvas graph, undo history,
selection, dirty flag and the flow properties the publish/save handlers read. -/
structure BuilderState where
  nodes : List FlowNode
  edges : List FlowEdge
  history : List Snapshot
  historyIndex : Nat
  selectedNode : Option String := none
  isDirty : Bool := false
  name : String := "New Flow"
  description : String := ""
  vertical : String := "kirana"
  version : String := "1.0.0"
  status : String := "draft"
  tags : List String := []
  deriving DecidableEq

/-- Serialized flow document produced by the save/publish/export handlers. -/
structure FlowData where
  id : String
  name : String
  description : String
  vertical : String
  version : String
  status : String
  nodes : List FlowNode
  edges : List FlowEdge
  createdAt : String
  updatedAt : String
  createdBy : String
  tags : List String
  deriving DecidableEq

/-- The `saveToHistory` callback (lines 140-146) applied with the snapshot its
closure captured: truncate redo states past `historyIndex`, append the
snapshot, point the index at it, mark dirty.  Callers such as `deleteNode`
invoke it after scheduling `setNodes`/`setEdges` updates, so the closure still
holds the pre-update graph — the pushed snapshot is the graph before the
mutation. -/
def saveToHistory (snap : Snapshot) (s : BuilderState) : BuilderState :=
  let newHistory := s.history.take (s.historyIndex + 1) ++ [snap]
  { s with
    history := newHistory, historyIndex := newHistory.length - 1,
    isDirty := true }

/-- The `deleteNode` callback (lines 216-224): drop the node, drop every edge
whose source or target is the node, clear the selection, save to history
(with the pre-delete snapshot, per the closure semantics above). -/
def deleteNode (nodeId : String) (s : BuilderState) : BuilderState :=
  let s' := { s with
    nodes := s.nodes.filter (fun n => n.id != nodeId),
    edges := s.edges.filter (fun e => e.source != nodeId && e.target != nodeId),
    selectedNode := none }
  saveToHistory { nodes := s.nodes, edges := s.edges } s'

/-- The `undo` callback (lines 148-155): when `historyIndex > 0`, restore the
snapshot at `historyIndex - 1` and decrement the index. -/
def undo (s : BuilderState) : BuilderState :=
  if 0 < s.historyIndex then
    let prevState := s.history.getD (s.historyIndex - 1) { nodes := [], edges := [] }
    { s with
      nodes := prevState.nodes, edges := prevState.edges,
      historyIndex := s.historyIndex - 1 }
  else s

/-- The `redo` callback (lines 157-164): when `historyIndex < history.length -
1`, restore the snapshot at `historyIndex + 1` and increment the index. -/
def redo (s : BuilderState) : BuilderState :=
  if s.historyIndex < s.history.length - 1 then
    let nextState := s.history.getD (s.historyIndex + 1) { nodes := [], edges := [] }
    { s with
      nodes := nextState.nodes, edges := nextState.edges,
      historyIndex := s.historyIndex + 1 }
  else s

/-- The `handlePublish` callback (lines 252-277): build the flow document with
`status: 'active'`, set the properties status to `'active'`, clear the dirty
flag.  No validation of any kind is performed.  `flowId` stands for
`flow?.id || generated id` and `now` for `new Date().toISOString()`. -/
def handlePublish (flowId : String) (now createdAt : String) (s : BuilderState) :
    FlowData × BuilderState :=
  let flowData : FlowData :=
    { id := flowId, name := s.name, description := s.description,
      vertical := s.vertical, version := s.version, status := "active",
      nodes := s.nodes, edges := s.edges, createdAt := createdAt,
      updatedAt := now, createdBy := "current-user", tags := s.tags }
  (flowData, { s with status := "active", isDirty := false })

/- Spec-side definitions used to compare the code against the specification's
description of condition evaluation and of publish-time validation. -/

/-- Modelled from the spec: numeric coercion for condition comparisons
("Numeric comparisons coerce both sides to numbers when possible"); numbers
are already numeric and decimal digit strings are coerced, other values are
not numbers. -/
def toNumber : VarValue → Option ℚ
  | .num q => some q
  | .str s => (s.toNat?).map (fun n => (n : ℚ))
  | .bool _ => none

/-- Modelled from the spec: membership test for the `contains` operator
("`contains` is substring/membership"), as substring on strings. -/
def containsValue : VarValue → VarValue → Bool
  | .str a, .str b => (a.splitOn b).length ≥ 2
  | _, _ => false

/-- Modelled from the spec: the variable bindings the simulator's run would
expose, read off the synthetic `SimulationData` payload field by field
(`items`, being a list, is not addressable as a scalar variable here). -/
def lookupVar (data : SimulationData) : String → Option VarValue
  | "orderId" => some (.str data.orderId)
  | "customerId" => some (.str data.customerId)
  | "merchantId" => some (.str data.merchantId)
  | "amount" => some (.num data.amount)
  | "customerPhone" => some (.str data.customerPhone)
  | "merchantPhone" => some (.str data.merchantPhone)
  | "timestamp" => some (.str data.timestamp)
  | _ => none

/-- Modelled from the spec: evaluate `config.operator` over
`variables[config.field]` vs `config.value` with the operator set
`{equals, not_equals, greater_than, less_than, contains, exists}`;
`exists` checks key presence regardless of value. -/
def specEvalCondition (vars : String → Option VarValue) (c : CondConfig) : Bool :=
  match c.operator with
  | .equals => vars c.field = some c.value
  | .not_equals => ¬ (vars c.field = some c.value)
  | .greater_than =>
    match (vars c.field).bind toNumber, toNumber c.value with
    | some a, some b => a > b
    | _, _ => false
  | .less_than =>
    match (vars c.field).bind toNumber, toNumber c.value with
    | some a, some b => a < b
    | _, _ => false
  | .contains =>
    match vars c.field with
    | some v => containsValue v c.value
    | none => false
  | .exists_ => (vars c.field).isSome

/-- Modelled from the spec: the structural validity the Validator is said to
enforce before publishing — "exactly one Start, ≥ 1 End" (spec section 4.2,
check (a)); there is no Validator anywhere in the source. -/
def specStructurallyValid (nodes : List FlowNode) : Bool :=
  nodes.countP (fun n => n.type == "start") == 1 && nodes.any (fun n => n.type == "end")

/- Concrete fixtures used by counterexamples and witnesses. -/

/-- Synthetic payload with the source's default amount 245.50 replaced by 150,
matching the spec's Scenario B ("same graph with `amount=150`"). -/
def sampleData : SimulationData :=
  { orderId := "ORD-1", customerId := "CUST-1", merchantId := "MERCH-1",
    amount := 150, items := [], customerPhone := "+91 98765 43210",
    merchantPhone := "+91 87654 32109", timestamp := "2024-01-01T00:00:00Z" }

/-- Oracle whose success draw exceeds 0.1 (step succeeds) and whose condition
draw exceeds 0.5 (condition reports `true`). -/
def oracleHi : StepOracle :=
  { rSuccess := 1, rDuration := 0, rCond := mkRat 3 5, rId := "abc", isoNow := "t0",
    tStart := 0, tEnd := 1 }

/-- Oracle whose success draw exceeds 0.1 but whose condition draw is below
0.5 (condition reports `false`). -/
def oracleLo : StepOracle :=
  { rSuccess := 1, rDuration := 0, rCond := mkRat 2 5, rId := "abc", isoNow := "t0",
    tStart := 0, tEnd := 1 }

/-- Oracle whose success draw is below 0.1: the step is sealed `failed`. -/
def oracleFail : StepOracle :=
  { rSuccess := 0, rDuration := 0, rCond := mkRat 3 5, rId := "abc", isoNow := "t0",
    tStart := 0, tEnd := 1 }

/-- Condition node comparing `amount > 200`, as in the spec's Scenario A/B. -/
def condNodeEx : FlowNode :=
  { id := "cond-1", type := "condition", label := some "Condition",
    condition := some { field := "amount", operator := .greater_than,
                        value := .num 200 } }

/-- Graph for the Condition-branching claims: Start → Condition with a `true`
edge to `t-1` and a `false` edge to `f-1`, both rejoining at End. -/
def g3nodes : List FlowNode :=
  [ { id := "start-1", type := "start", label := some "Start" },
    condNodeEx,
    { id := "t-1", type := "payment", label := some "Payment" },
    { id := "f-1", type := "notification", label := some "Notify" },
    { id := "end-1", type := "end", label := some "End" } ]

/-- Edges of the Condition-branching graph; the simulator never reads them. -/
def g3edges : List FlowEdge :=
  [ { id := "e1", source := "start-1", target := "cond-1" },
    { id := "e2", source := "cond-1", target := "t-1", sourceHandle := some "true" },
    { id := "e3", source := "cond-1", target := "f-1", sourceHandle := some "false" },
    { id := "e4", source := "t-1", target := "end-1" },
    { id := "e5", source := "f-1", target := "end-1" } ]

/-- Graph for the Payment-branching claim: Start → Payment with a `success`
edge to `s-1` and a `failure` edge to `fl-1`, both rejoining at End. -/
def g4nodes : List FlowNode :=
  [ { id := "start-1", type := "start", label := some "Start" },
    { id := "pay-1", type := "payment", label := some "Payment" },
    { id := "s-1", type := "notification", label := some "OnSuccess" },
    { id := "fl-1", type := "action", label := some "OnFailure" },
    { id := "end-1", type := "end", label := some "End" } ]

/-- Edges of the Payment-branching graph; the simulator never reads them. -/
def g4edges : List FlowEdge :=
  [ { id := "p1", source := "start-1", target := "pay-1" },
    { id := "p2", source := "pay-1", target := "s-1", sourceHandle := some "success" },
    { id := "p3", source := "pay-1", target := "fl-1", sourceHandle := some "failure" },
    { id := "p4", source := "s-1", target := "end-1" },
    { id := "p5", source := "fl-1", target := "end-1" } ]

/-- Sealed timeline produced by consuming one oracle per remaining step:
`executeNextStep` seals steps strictly in list order, one per call. -/
def sealRun (nodes : List FlowNode) (data : SimulationData) :
    List StepOracle → List ExecutionStep → List ExecutionStep
  | [], todo => todo
  | _ :: _, [] => []
  | o :: os, st :: rest => sealStep o nodes data st :: sealRun nodes data os rest

/-- A step sealed by `sealStep` is `completed` or `failed`. -/
def sealedB (st : ExecutionStep) : Bool :=
  decide (st.status = .completed ∨ st.status = .failed)

/-- A step whose status is not `skipped`. -/
def notSkippedB (st : ExecutionStep) : Bool :=
  decide (st.status ≠ .skipped)

/-- A step in the cleared (freshly reset) form. -/
def stepCleared (st : ExecutionStep) : Bool :=
  decide (st.status = .pending ∧ st.startTime = none ∧ st.endTime = none ∧
    st.duration = none ∧ st.output = none ∧ st.error = none ∧ st.logs = [])

/-- Referential integrity of the edge list: every edge endpoint names an
existing node. -/
def edgesClosed (nodes : List FlowNode) (edges : List FlowEdge) : Bool :=
  edges.all (fun e =>
    nodes.any (fun n => n.id == e.source) && nodes.any (fun n => n.id == e.target))

/-- Status recorded at position `i` of the timeline, if any. -/
def statusAt (s : SimState) (i : Nat) : Option StepStatus :=
  (s.steps[i]?).map (fun st => st.status)

/-- Two-node linear graph whose first node has a single unconditional edge
and hence no failure-path edge. -/
def gLinNodes : List FlowNode :=
  [ { id := "a-1", type := "action", label := some "First" },
    { id := "a-2", type := "action", label := some "Second" } ]

/-- The single unconditional edge of the linear graph (no `sourceHandle`). -/
def gLinEdges : List FlowEdge :=
  [ { id := "l1", source := "a-1", target := "a-2" } ]

/-- Synthetic payload with the source's default amount 245.50, as in the
spec's Scenario A. -/
def sampleData245 : SimulationData :=
  { sampleData with amount := mkRat 491 2 }

/-- Editor state holding the condition graph, with one history snapshot. -/
def builderEx : BuilderState :=
  { nodes := g3nodes, edges := g3edges,
    history := [{ nodes := g3nodes, edges := g3edges }], historyIndex := 0 }

/-- Editor state whose history holds an empty snapshot followed by the
condition graph, with the index on the latter and the canvas in sync. -/
def builderUndoEx : BuilderState :=
  { nodes := g3nodes, edges := g3edges,
    history := [{ nodes := [], edges := [] }, { nodes := g3nodes, edges := g3edges }],
    historyIndex := 1 }

/-- Draft editor state whose graph has a Start node but no End node — a flow
the spec's Validator would reject as structurally invalid. -/
def draftNoEnd : BuilderState :=
  { nodes := [ { id := "start-1", type := "start", label := some "Start" } ],
    edges := [],
    history := [ { nodes := [ { id := "start-1", type := "start", label := some "Start" } ],
                   edges := [] } ],
    historyIndex := 0 }

/- Lemma layer: basic facts about `mapWithIndex`, the controller transitions,
and whole runs. -/

theorem mapWithIndex_nil (f : Nat → ExecutionStep → ExecutionStep) (b : Nat) :
    mapWithIndex f b [] = [] := rfl

theorem mapWithIndex_cons (f : Nat → ExecutionStep → ExecutionStep) (b : Nat)
    (st : ExecutionStep) (l : List ExecutionStep) :
    mapWithIndex f b (st :: l) = f b st :: mapWithIndex f (b + 1) l := rfl

/-- Mapping `g` over an index-aware map collapses to mapping `g` alone when
`g` absorbs the per-index update. -/
theorem map_mapWithIndex (g : ExecutionStep → ExecutionStep)
    (f : Nat → ExecutionStep → ExecutionStep)
    (h : ∀ j x, g (f j x) = g x) :
    ∀ (b : Nat) (l : List ExecutionStep),
      (mapWithIndex f b l).map g = l.map g := by
  intro b l
  induction l generalizing b with
  | nil => rfl
  | cons st rest ih => simp [mapWithIndex, h, ih]

/-- A boolean predicate preserved by every per-index update survives an
index-aware map. -/
theorem all_mapWithIndex (p : ExecutionStep → Bool)
    (f : Nat → ExecutionStep → ExecutionStep)
    (h : ∀ j x, p x = true → p (f j x) = true) :
    ∀ (b : Nat) (l : List ExecutionStep),
      l.all p = true → (mapWithIndex f b l).all p = true := by
  intro b l
  induction l generalizing b with
  | nil => intro _; rfl
  | cons st rest ih =>
    intro hall
    simp only [List.all_cons, Bool.and_eq_true] at hall
    simp [mapWithIndex, h b st hall.1, ih (b + 1) hall.2]

/-- An update targeted at index `k` is the identity on a list whose indices
all lie strictly above `k`. -/
theorem mapWithIndex_ite_gt (g : ExecutionStep → ExecutionStep) (k : Nat) :
    ∀ (b : Nat) (l : List ExecutionStep), k < b →
      mapWithIndex (fun j x => if j = k then g x else x) b l = l := by
  intro b l
  induction l generalizing b with
  | nil => intro _; rfl
  | cons st rest ih =>
    intro hk
    have hne : b ≠ k := by omega
    simp [mapWithIndex, hne, ih (b + 1) (by omega)]

/-- An update targeted at the index right after `done` rewrites exactly the
head of the remaining suffix. -/
theorem mapWithIndex_ite_middle (g : ExecutionStep → ExecutionStep) :
    ∀ (done : List ExecutionStep) (k b : Nat) (st : ExecutionStep)
      (rest : List ExecutionStep), k = b + done.length →
      mapWithIndex (fun j x => if j = k then g x else x) b (done ++ st :: rest)
        = done ++ g st :: rest := by
  intro done
  induction done with
  | nil =>
    intro k b st rest hk
    have hb : k = b := by simpa using hk
    subst hb
    rw [List.nil_append, mapWithIndex_cons, if_pos rfl,
      mapWithIndex_ite_gt g k (k + 1) rest (by omega)]
    rfl
  | cons d done ih =>
    intro k b st rest hk
    have hne : b ≠ k := by simp only [List.length_cons] at hk; omega
    rw [List.cons_append, mapWithIndex_cons, if_neg hne,
      ih k (b + 1) st rest (by simp only [List.length_cons] at hk; omega)]
    rfl

theorem executeNextStep_nodes (o : StepOracle) (s : SimState) :
    (executeNextStep o s).nodes = s.nodes := by
  unfold executeNextStep; split <;> rfl

theorem executeNextStep_edges (o : StepOracle) (s : SimState) :
    (executeNextStep o s).edges = s.edges := by
  unfold executeNextStep; split <;> rfl

theorem executeNextStep_data (o : StepOracle) (s : SimState) :
    (executeNextStep o s).data = s.data := by
  unfold executeNextStep; split <;> rfl

theorem executeNextStep_speed (o : StepOracle) (s : SimState) :
    (executeNextStep o s).playbackSpeed = s.playbackSpeed := by
  unfold executeNextStep; split <;> rfl

/-- Resetting a sealed step gives the same cleared step as resetting the step
before sealing: sealing touches no identity field. -/
theorem resetStep_sealStep (o : StepOracle) (nodes : List FlowNode)
    (data : SimulationData) (st : ExecutionStep) :
    resetStep (sealStep o nodes data st) = resetStep st := rfl

theorem resetStep_resetStep (st : ExecutionStep) :
    resetStep (resetStep st) = resetStep st := rfl

theorem map_resetStep_map_resetStep (l : List ExecutionStep) :
    (l.map resetStep).map resetStep = l.map resetStep := by
  induction l with
  | nil => rfl
  | cons st rest ih => simp [ih, resetStep_resetStep]

/-- Freshly initialized steps are already in cleared form. -/
theorem map_resetStep_initSteps (nodes : List FlowNode) :
    (initSteps nodes).map resetStep = initSteps nodes := by
  unfold initSteps
  induction nodes.enum with
  | nil => rfl
  | cons p rest ih =>
    simp only [List.map_cons] at ih ⊢
    rw [ih]
    rfl

/-- One execution step leaves the cleared image of the timeline unchanged. -/
theorem map_resetStep_executeNextStep (o : StepOracle) (s : SimState) :
    (executeNextStep o s).steps.map resetStep = s.steps.map resetStep := by
  unfold executeNextStep
  split
  · rfl
  · exact map_mapWithIndex resetStep _
      (fun j x => by split <;> simp [resetStep_sealStep]) 0 s.steps

theorem runExecs_nil (s : SimState) : runExecs [] s = s := rfl

theorem runExecs_cons (o : StepOracle) (os : List StepOracle) (s : SimState) :
    runExecs (o :: os) s = runExecs os (executeNextStep o s) := rfl

theorem runExecs_nodes (os : List StepOracle) (s : SimState) :
    (runExecs os s).nodes = s.nodes := by
  induction os generalizing s with
  | nil => rfl
  | cons o os ih => rw [runExecs_cons, ih, executeNextStep_nodes]

theorem runExecs_edges (os : List StepOracle) (s : SimState) :
    (runExecs os s).edges = s.edges := by
  induction os generalizing s with
  | nil => rfl
  | cons o os ih => rw [runExecs_cons, ih, executeNextStep_edges]

theorem runExecs_data (os : List StepOracle) (s : SimState) :
    (runExecs os s).data = s.data := by
  induction os generalizing s with
  | nil => rfl
  | cons o os ih => rw [runExecs_cons, ih, executeNextStep_data]

theorem runExecs_speed (os : List StepOracle) (s : SimState) :
    (runExecs os s).playbackSpeed = s.playbackSpeed := by
  induction os generalizing s with
  | nil => rfl
  | cons o os ih => rw [runExecs_cons, ih, executeNextStep_speed]

theorem map_resetStep_runExecs (os : List StepOracle) (s : SimState) :
    (runExecs os s).steps.map resetStep = s.steps.map resetStep := by
  induction os generalizing s with
  | nil => rfl
  | cons o os ih => rw [runExecs_cons, ih, map_resetStep_executeNextStep]

theorem startSimulation_nodes (s : SimState) :
    (startSimulation s).nodes = s.nodes := by
  unfold startSimulation; split <;> rfl

theorem startSimulation_edges (s : SimState) :
    (startSimulation s).edges = s.edges := by
  unfold startSimulation; split <;> rfl

theorem startSimulation_data (s : SimState) :
    (startSimulation s).data = s.data := by
  unfold startSimulation; split <;> rfl

theorem startSimulation_speed (s : SimState) :
    (startSimulation s).playbackSpeed = s.playbackSpeed := by
  unfold startSimulation; split <;> rfl

theorem map_resetStep_startSimulation (s : SimState) :
    (startSimulation s).steps.map resetStep = s.steps.map resetStep := by
  unfold startSimulation
  split
  · exact map_resetStep_map_resetStep s.steps
  · rfl

theorem sealRun_nil_right (nodes : List FlowNode) (data : SimulationData)
    (os : List StepOracle) : sealRun nodes data os [] = [] := by
  cases os <;> rfl

/-- Full characterization of a sequence of `executeNextStep` calls from a
state whose index sits at the boundary between a `done` prefix and a `todo`
suffix: the run seals `min os.length todo.length` further steps in order,
advances the index accordingly, never touches graph, data or speed, and
clears `isPlaying` exactly when the oracles outnumber the remaining steps. -/
theorem runExecs_split (nodes : List FlowNode) (edges : List FlowEdge)
    (data : SimulationData) :
    ∀ (os : List StepOracle) (done todo : List ExecutionStep)
      (playing : Bool) (speed : ℚ),
      runExecs os
          { nodes := nodes, edges := edges, data := data,
            steps := done ++ todo, currentStepIndex := done.length,
            isPlaying := playing, playbackSpeed := speed }
        = { nodes := nodes, edges := edges, data := data,
            steps := done ++ sealRun nodes data os todo,
            currentStepIndex := done.length + min os.length todo.length,
            isPlaying := if todo.length < os.length then false else playing,
            playbackSpeed := speed } := by
  intro os
  induction os with
  | nil =>
    intro done todo playing speed
    simp [runExecs, sealRun]
  | cons o os ih =>
    intro done todo playing speed
    rw [runExecs_cons]
    cases todo with
    | nil =>
      have hS : executeNextStep o
          { nodes := nodes, edges := edges, data := data,
            steps := done ++ ([] : List ExecutionStep),
            currentStepIndex := done.length,
            isPlaying := playing, playbackSpeed := speed }
          = { nodes := nodes, edges := edges, data := data,
              steps := done ++ ([] : List ExecutionStep),
              currentStepIndex := done.length,
              isPlaying := false, playbackSpeed := speed } := by
        unfold executeNextStep
        rw [if_pos (by simp)]
      rw [hS, ih done [] false speed]
      simp [sealRun_nil_right]
    | cons st rest =>
      have hS : executeNextStep o
          { nodes := nodes, edges := edges, data := data,
            steps := done ++ st :: rest, currentStepIndex := done.length,
            isPlaying := playing, playbackSpeed := speed }
          = { nodes := nodes, edges := edges, data := data,
              steps := done ++ sealStep o nodes data st :: rest,
              currentStepIndex := done.length + 1,
              isPlaying := playing, playbackSpeed := speed } := by
        unfold executeNextStep
        rw [if_neg (by simp)]
        dsimp only
        rw [mapWithIndex_ite_middle (sealStep o nodes data) done done.length 0
          st rest (by omega)]
      rw [hS]
      have h2 : done ++ sealStep o nodes data st :: rest
          = (done ++ [sealStep o nodes data st]) ++ rest := by simp
      have h3 : done.length + 1 = (done ++ [sealStep o nodes data st]).length := by simp
      rw [h2, h3, ih (done ++ [sealStep o nodes data st]) rest playing speed]
      have hsteps : (done ++ [sealStep o nodes data st]) ++ sealRun nodes data os rest
          = done ++ sealRun nodes data (o :: os) (st :: rest) := by
        simp [sealRun]
      have hidx : (done ++ [sealStep o nodes data st]).length + min os.length rest.length
          = done.length + min (o :: os).length (st :: rest).length := by
        simp only [List.length_append, List.length_cons, List.length_nil]
        omega
      have hplay : (if rest.length < os.length then false else playing)
          = (if (st :: rest).length < (o :: os).length then false else playing) := by
        simp only [List.length_cons, Nat.succ_lt_succ_iff]
      rw [hsteps, hidx, hplay]

theorem sealedB_sealStep (o : StepOracle) (nodes : List FlowNode)
    (data : SimulationData) (st : ExecutionStep) :
    sealedB (sealStep o nodes data st) = true := by
  cases hs : decide (mkRat 1 10 < o.rSuccess) <;>
    simp [sealStep, sealedB, hs]

theorem sealRun_all_sealed (nodes : List FlowNode) (data : SimulationData) :
    ∀ (todo : List ExecutionStep) (os : List StepOracle),
      todo.length ≤ os.length →
      (sealRun nodes data os todo).all sealedB = true := by
  intro todo
  induction todo with
  | nil => intro os _; rw [sealRun_nil_right]; rfl
  | cons st rest ih =>
    intro os hlen
    cases os with
    | nil => simp at hlen
    | cons o os =>
      simp only [sealRun, List.all_cons, Bool.and_eq_true]
      exact ⟨sealedB_sealStep o nodes data st,
        ih os (by simpa using hlen)⟩

theorem notSkippedB_sealStep (o : StepOracle) (nodes : List FlowNode)
    (data : SimulationData) (st : ExecutionStep) :
    notSkippedB (sealStep o nodes data st) = true := by
  cases hs : decide (mkRat 1 10 < o.rSuccess) <;>
    simp [sealStep, notSkippedB, hs]

theorem all_notSkipped_map_reset (l : List ExecutionStep) :
    (l.map resetStep).all notSkippedB = true := by
  induction l with
  | nil => rfl
  | cons st rest ih => simp only [List.map_cons, List.all_cons,
      Bool.and_eq_true]; exact ⟨by simp [resetStep, notSkippedB], ih⟩

theorem applyOp_noSkip (op : SimOp) (s : SimState)
    (h : s.steps.all notSkippedB = true) :
    (applyOp op s).steps.all notSkippedB = true := by
  cases op with
  | play =>
    show (startSimulation s).steps.all notSkippedB = true
    unfold startSimulation
    split
    · exact all_notSkipped_map_reset s.steps
    · exact h
  | pause => exact h
  | stop => exact all_notSkipped_map_reset s.steps
  | jump k => exact h
  | exec o =>
    show (executeNextStep o s).steps.all notSkippedB = true
    unfold executeNextStep
    split
    · exact h
    · refine all_mapWithIndex notSkippedB _ ?_ 0 s.steps h
      intro j x hx
      split
      · exact notSkippedB_sealStep o s.nodes s.data x
      · exact hx
  | speed q => exact h

theorem applyOps_noSkip (ops : List SimOp) (s : SimState)
    (h : s.steps.all notSkippedB = true) :
    (applyOps ops s).steps.all notSkippedB = true := by
  induction ops generalizing s with
  | nil => exact h
  | cons op ops ih => exact ih (applyOp op s) (applyOp_noSkip op s h)

theorem initSteps_noSkip (nodes : List FlowNode) :
    (initSteps nodes).all notSkippedB = true := by
  unfold initSteps
  induction nodes.enum with
  | nil => rfl
  | cons p rest ih =>
    simp only [List.map_cons, List.all_cons, Bool.and_eq_true]
    exact ⟨by simp [notSkippedB], ih⟩

theorem applyOp_nodes (op : SimOp) (s : SimState) :
    (applyOp op s).nodes = s.nodes := by
  cases op with
  | play => exact startSimulation_nodes s
  | pause => rfl
  | stop => rfl
  | jump k => rfl
  | exec o => exact executeNextStep_nodes o s
  | speed q => rfl

theorem applyOp_edges (op : SimOp) (s : SimState) :
    (applyOp op s).edges = s.edges := by
  cases op with
  | play => exact startSimulation_edges s
  | pause => rfl
  | stop => rfl
  | jump k => rfl
  | exec o => exact executeNextStep_edges o s
  | speed q => rfl

theorem all_stepCleared_map_reset (l : List ExecutionStep) :
    (l.map resetStep).all stepCleared = true := by
  induction l with
  | nil => rfl
  | cons st rest ih =>
    simp only [List.map_cons, List.all_cons, Bool.and_eq_true]
    exact ⟨by simp [resetStep, stepCleared], ih⟩

theorem initSteps_length (nodes : List FlowNode) :
    (initSteps nodes).length = nodes.length := by
  unfold initSteps
  rw [List.length_map, List.enum_length]

/-- Element-wise view of an index-aware map. -/
theorem mapWithIndex_getElem (f : Nat → ExecutionStep → ExecutionStep) :
    ∀ (b : Nat) (l : List ExecutionStep) (j : Nat),
      (mapWithIndex f b l)[j]? = (l[j]?).map (f (b + j)) := by
  intro b l
  induction l generalizing b with
  | nil => intro j; simp [mapWithIndex]
  | cons st rest ih =>
    intro j
    cases j with
    | zero => simp [mapWithIndex]
    | succ j =>
      simp only [mapWithIndex_cons, List.getElem?_cons_succ]
      rw [ih (b + 1) j, show b + (j + 1) = b + 1 + j from by omega]

/-- Component-wise equality of simulator states. -/
theorem simState_eq (s t : SimState) (h1 : s.nodes = t.nodes)
    (h2 : s.edges = t.edges) (h3 : s.data = t.data) (h4 : s.steps = t.steps)
    (h5 : s.currentStepIndex = t.currentStepIndex)
    (h6 : s.isPlaying = t.isPlaying)
    (h7 : s.playbackSpeed = t.playbackSpeed) : s = t := by
  cases s; cases t
  dsimp only at h1 h2 h3 h4 h5 h6 h7
  subst h1; subst h2; subst h3; subst h4; subst h5; subst h6; subst h7
  rfl

/-- Stopping after any play-then-run session restores the exact initial
simulator state, whatever the oracles drew. -/
theorem stop_resets_to_init (nodes : List FlowNode) (edges : List FlowEdge)
    (data : SimulationData) (os : List StepOracle) :
    stopSimulation (runExecs os (startSimulation (initState nodes edges data)))
      = initState nodes edges data := by
  apply simState_eq
  · show (runExecs os (startSimulation (initState nodes edges data))).nodes
        = (initState nodes edges data).nodes
    rw [runExecs_nodes, startSimulation_nodes]
  · show (runExecs os (startSimulation (initState nodes edges data))).edges
        = (initState nodes edges data).edges
    rw [runExecs_edges, startSimulation_edges]
  · show (runExecs os (startSimulation (initState nodes edges data))).data
        = (initState nodes edges data).data
    rw [runExecs_data, startSimulation_data]
  · show (runExecs os (startSimulation (initState nodes edges data))).steps.map resetStep
        = (initState nodes edges data).steps
    rw [map_resetStep_runExecs, map_resetStep_startSimulation]
    exact map_resetStep_initSteps nodes
  · rfl
  · rfl
  · show (runExecs os (startSimulation (initState nodes edges data))).playbackSpeed
        = (initState nodes edges data).playbackSpeed
    rw [runExecs_speed, startSimulation_speed]

/-- C7: for every flow graph and every sequence of Simulation Controller
operations (play, pause, step, stop/reset, jumpToStep, speed changes), the
`nodes` and `edges` collections are unchanged: the controller reads the graph
but never mutates it. -/
theorem controller_never_mutates_graph (ops : List SimOp) (s : SimState) :
    (applyOps ops s).nodes = s.nodes ∧ (applyOps ops s).edges = s.edges := by
  induction ops generalizing s with
  | nil => exact ⟨rfl, rfl⟩
  | cons op ops ih =>
    have hstep : applyOps (op :: ops) s = applyOps ops (applyOp op s) := rfl
    have h := ih (applyOp op s)
    constructor
    · rw [hstep, h.1, applyOp_nodes]
    · rw [hstep, h.2, applyOp_edges]

/-- C8: after `stopSimulation`, every execution step is back to `pending` with
`startTime`, `endTime`, `duration`, `output` and `error` cleared and `logs`
empty, and the current step index is 0 — regardless of how far the simulation
had progressed. -/
theorem stopSimulation_clears_run (s : SimState) :
    (stopSimulation s).currentStepIndex = 0 ∧ (stopSimulation s).isPlaying = false ∧
    (stopSimulation s).steps.all stepCleared = true :=
  ⟨rfl, rfl, all_stepCleared_map_reset s.steps⟩

/-- C6: for every flow graph and fixed fake-connector draws, stopping (reset)
restores the exact initial state, so replaying against the same oracle stream
reproduces the very same run — in particular the same sequence of
StepRecords. -/
theorem reset_then_replay_deterministic (nodes : List FlowNode)
    (edges : List FlowEdge) (data : SimulationData)
    (os os' : List StepOracle) :
    stopSimulation (runExecs os' (startSimulation (initState nodes edges data)))
        = initState nodes edges data
    ∧ runExecs os (startSimulation (stopSimulation
          (runExecs os' (startSimulation (initState nodes edges data)))))
        = runExecs os (startSimulation (initState nodes edges data)) := by
  refine ⟨stop_resets_to_init nodes edges data os', ?_⟩
  rw [stop_resets_to_init nodes edges data os']

/-- C1 (counterexample): with `amount = 150` and the condition config
`amount greater_than 200`, the simulated Condition execution reports branch
`"true"` when the random draw is 3/5 and branch `"false"` when it is 2/5 —
the branch disagrees with the spec evaluation of the config over the
variables, and differs across two runs with identical variables and config,
so it is not a function of them. -/
theorem condition_branch_counterexample :
    (simulateNodeExecution (some condNodeEx) sampleData oracleHi).output
        = some (.condOut true "true")
    ∧ (simulateNodeExecution (some condNodeEx) sampleData oracleLo).output
        = some (.condOut false "false")
    ∧ specEvalCondition (lookupVar sampleData)
        { field := "amount", operator := .greater_than, value := .num 200 } = false
    ∧ condNodeEx.condition
        = some { field := "amount", operator := .greater_than, value := .num 200 } := by
  refine ⟨by decide, by decide, by decide, rfl⟩

/-- C1 (amended): the simulated Condition execution ignores the node's
condition config and the variables entirely: its whole result is the same for
any two condition nodes and any two payloads, and the branch is `"true"` iff
the dedicated random draw exceeds 1/2. -/
theorem condition_branch_is_coin_flip (n n' : FlowNode)
    (data data' : SimulationData) (o : StepOracle)
    (h : n.type = "condition") (h' : n'.type = "condition") :
    simulateNodeExecution (some n) data o = simulateNodeExecution (some n') data' o
    ∧ (simulateNodeExecution (some n) data o).output
        = some (.condOut (decide (mkRat 1 2 < o.rCond))
            (if decide (mkRat 1 2 < o.rCond) = true then "true" else "false")) := by
  obtain ⟨id1, ty1, l1, c1, p1⟩ := n
  obtain ⟨id2, ty2, l2, c2, p2⟩ := n'
  dsimp only at h h'
  subst h; subst h'
  exact ⟨rfl, rfl⟩

/-- Witness for `condition_branch_is_coin_flip` at two concrete payloads. -/
theorem condition_branch_is_coin_flip_witness :
    condNodeEx.type = "condition"
    ∧ (simulateNodeExecution (some condNodeEx) sampleData oracleHi
          = simulateNodeExecution (some condNodeEx) sampleData245 oracleHi
        ∧ (simulateNodeExecution (some condNodeEx) sampleData oracleHi).output
            = some (.condOut (decide (mkRat 1 2 < oracleHi.rCond))
                (if decide (mkRat 1 2 < oracleHi.rCond) = true then "true" else "false"))) :=
  ⟨rfl, condition_branch_is_coin_flip condNodeEx condNodeEx sampleData sampleData245
    oracleHi rfl rfl⟩

/-- C2 (counterexample): on a two-node graph whose first node has no
failure-path edge, a failed first step (drawn failure, `error` left empty)
does not stop the run: the second node is still executed and completes.
There is no run-level status at all. -/
theorem failed_step_run_continues_counterexample :
    ((executeNextStep oracleFail (initState gLinNodes gLinEdges sampleData)).steps.map
        (fun st => (st.status, st.error)))
      = [(.failed, none), (.pending, none)]
    ∧ ((runExecs [oracleFail, oracleHi] (initState gLinNodes gLinEdges sampleData)).steps.map
        (fun st => st.status))
      = [.failed, .completed]
    ∧ gLinEdges.all (fun e => e.sourceHandle == none) = true := by
  refine ⟨by decide, by decide, by decide⟩

/-- C2 (amended): sealing a step as `failed` never halts the run: whenever a
step remains, `executeNextStep` seals the current step (as `failed` when the
success draw is at most 1/10) and advances the index by one regardless, so
the following node is executed next. -/
theorem failed_step_does_not_halt (o : StepOracle) (s : SimState)
    (hlt : s.currentStepIndex < s.steps.length)
    (hfail : ¬ mkRat 1 10 < o.rSuccess) :
    (executeNextStep o s).currentStepIndex = s.currentStepIndex + 1
    ∧ statusAt (executeNextStep o s) s.currentStepIndex = some .failed := by
  unfold executeNextStep
  rw [if_neg (by omega)]
  refine ⟨rfl, ?_⟩
  show ((mapWithIndex _ 0 s.steps)[s.currentStepIndex]?).map (fun st => st.status)
      = some .failed
  rw [mapWithIndex_getElem, List.getElem?_eq_getElem hlt]
  simp [sealStep, hfail]

/-- Witness for `failed_step_does_not_halt` on the two-node linear graph. -/
theorem failed_step_does_not_halt_witness :
    ((initState gLinNodes gLinEdges sampleData).currentStepIndex
        < (initState gLinNodes gLinEdges sampleData).steps.length
      ∧ ¬ mkRat 1 10 < oracleFail.rSuccess)
    ∧ ((executeNextStep oracleFail (initState gLinNodes gLinEdges sampleData)).currentStepIndex
          = (initState gLinNodes gLinEdges sampleData).currentStepIndex + 1
        ∧ statusAt (executeNextStep oracleFail (initState gLinNodes gLinEdges sampleData))
            (initState gLinNodes gLinEdges sampleData).currentStepIndex = some .failed) :=
  ⟨⟨by decide, by decide⟩,
    failed_step_does_not_halt oracleFail (initState gLinNodes gLinEdges sampleData)
      (by decide) (by decide)⟩

/-- C3 (counterexample): on the Start → Condition graph with a `true` edge to
`t-1` and a `false` edge to `f-1`, a full run with succeeding draws marks
both branch targets `completed`; neither is `skipped`. -/
theorem condition_both_targets_executed_counterexample :
    ((runExecs [oracleHi, oracleHi, oracleHi, oracleHi, oracleHi]
        (initState g3nodes g3edges sampleData)).steps.map
          (fun st => (st.nodeId, st.status)))
      = [("start-1", .completed), ("cond-1", .completed), ("t-1", .completed),
         ("f-1", .completed), ("end-1", .completed)]
    ∧ g3edges.any (fun e => e.source == "cond-1" && e.sourceHandle == some "true"
        && e.target == "t-1") = true
    ∧ g3edges.any (fun e => e.source == "cond-1" && e.sourceHandle == some "false"
        && e.target == "f-1") = true := by
  refine ⟨by decide, by decide, by decide⟩

/-- C3 (amended): the simulator executes the node array in order, ignoring
edges; no StepRecord ever carries status `skipped` in any state reachable from
an initial state by any sequence of controller operations. -/
theorem simulator_never_marks_skipped (ops : List SimOp) (nodes : List FlowNode)
    (edges : List FlowEdge) (data : SimulationData) :
    ((applyOps ops (initState nodes edges data)).steps.all notSkippedB) = true :=
  applyOps_noSkip ops (initState nodes edges data) (initSteps_noSkip nodes)

/-- C4 (counterexample): on the Start → Payment graph with a `success` edge to
`s-1` and a `failure` edge to `fl-1`, a full run with succeeding draws marks
both the success target and the failure target `completed` in the same run. -/
theorem payment_both_targets_executed_counterexample :
    ((runExecs [oracleHi, oracleHi, oracleHi, oracleHi, oracleHi]
        (initState g4nodes g4edges sampleData)).steps.map
          (fun st => (st.nodeId, st.status)))
      = [("start-1", .completed), ("pay-1", .completed), ("s-1", .completed),
         ("fl-1", .completed), ("end-1", .completed)]
    ∧ g4edges.any (fun e => e.source == "pay-1" && e.sourceHandle == some "success"
        && e.target == "s-1") = true
    ∧ g4edges.any (fun e => e.source == "pay-1" && e.sourceHandle == some "failure"
        && e.target == "fl-1") = true := by
  refine ⟨by decide, by decide, by decide⟩

/-- C4 (amended): a full run (one `executeNextStep` per node) seals every
step `completed` or `failed` — every node of the array is executed, including
both the success and the failure target of a Payment node; the payment
outcome selects no branch. -/
theorem full_run_executes_every_node (nodes : List FlowNode)
    (edges : List FlowEdge) (data : SimulationData) (os : List StepOracle)
    (h : os.length = nodes.length) :
    ((runExecs os (initState nodes edges data)).steps.all sealedB) = true := by
  rw [show initState nodes edges data
      = { nodes := nodes, edges := edges, data := data,
          steps := ([] : List ExecutionStep) ++ initSteps nodes,
          currentStepIndex := ([] : List ExecutionStep).length,
          isPlaying := false, playbackSpeed := 1 } from rfl,
    runExecs_split nodes edges data os [] (initSteps nodes) false 1]
  show (([] : List ExecutionStep) ++ sealRun nodes data os (initSteps nodes)).all sealedB
      = true
  rw [List.nil_append]
  exact sealRun_all_sealed nodes data (initSteps nodes) os
    (by rw [initSteps_length]; omega)

/-- Witness for `full_run_executes_every_node` on the payment graph. -/
theorem full_run_executes_every_node_witness :
    ([oracleHi, oracleHi, oracleHi, oracleHi, oracleHi] : List StepOracle).length
        = g4nodes.length
    ∧ ((runExecs [oracleHi, oracleHi, oracleHi, oracleHi, oracleHi]
        (initState g4nodes g4edges sampleData)).steps.all sealedB) = true :=
  ⟨by decide, full_run_executes_every_node g4nodes g4edges sampleData
    [oracleHi, oracleHi, oracleHi, oracleHi, oracleHi] (by decide)⟩

/-- C5 (counterexample): `handlePublish` marks a draft flow `active` even
though its graph has no End node, a flow the spec's structural validation
rejects: publishing is not gated on any validator. -/
theorem publish_bypasses_validation_counterexample :
    (handlePublish "flow-1" "t1" "t0" draftNoEnd).1.status = "active"
    ∧ (handlePublish "flow-1" "t1" "t0" draftNoEnd).2.status = "active"
    ∧ specStructurallyValid draftNoEnd.nodes = false
    ∧ draftNoEnd.status = "draft" := by
  refine ⟨rfl, rfl, by decide, rfl⟩

/-- C5 (amended): `handlePublish` unconditionally activates: for every editor
state it emits the flow document with status `active` (graph passed through
unchanged) and sets the properties status to `active`, with no validation. -/
theorem handlePublish_unconditionally_activates (flowId now createdAt : String)
    (s : BuilderState) :
    (handlePublish flowId now createdAt s).1.status = "active"
    ∧ (handlePublish flowId now createdAt s).2.status = "active"
    ∧ (handlePublish flowId now createdAt s).1.nodes = s.nodes
    ∧ (handlePublish flowId now createdAt s).1.edges = s.edges :=
  ⟨rfl, rfl, rfl, rfl⟩

/-- C9: after `deleteNode nodeId`, no remaining edge has the deleted node as
source or target, and deletion preserves the invariant that every edge
endpoint references an existing node. -/
theorem deleteNode_no_dangling_edges (s : BuilderState) (nodeId : String) :
    ((deleteNode nodeId s).edges.all
        (fun e => e.source != nodeId && e.target != nodeId)) = true
    ∧ (edgesClosed s.nodes s.edges = true →
        edgesClosed (deleteNode nodeId s).nodes (deleteNode nodeId s).edges = true) := by
  have hedges : (deleteNode nodeId s).edges
      = s.edges.filter (fun e => e.source != nodeId && e.target != nodeId) := rfl
  have hnodes : (deleteNode nodeId s).nodes
      = s.nodes.filter (fun n => n.id != nodeId) := rfl
  constructor
  · rw [hedges]
    simp only [List.all_eq_true]
    intro e he
    exact (List.mem_filter.mp he).2
  · intro hcl
    rw [hedges, hnodes]
    simp only [edgesClosed, List.all_eq_true] at hcl ⊢
    intro e he
    obtain ⟨he', hpe⟩ := List.mem_filter.mp he
    have h2 := hcl e he'
    simp only [Bool.and_eq_true, List.any_eq_true] at h2 ⊢
    obtain ⟨⟨ns, hns, hnse⟩, nt, hnt, hnte⟩ := h2
    simp only [Bool.and_eq_true, bne_iff_ne, ne_eq] at hpe
    have hse : ns.id = e.source := by simpa using hnse
    have hte : nt.id = e.target := by simpa using hnte
    refine ⟨⟨ns, List.mem_filter.mpr ⟨hns, ?_⟩, hnse⟩,
      nt, List.mem_filter.mpr ⟨hnt, ?_⟩, hnte⟩
    · simp only [bne_iff_ne, ne_eq, hse]
      exact hpe.1
    · simp only [bne_iff_ne, ne_eq, hte]
      exact hpe.2

/-- Witness for `deleteNode_no_dangling_edges`: deleting the condition node
from the condition graph editor state. -/
theorem deleteNode_no_dangling_edges_witness :
    edgesClosed builderEx.nodes builderEx.edges = true
    ∧ ((deleteNode "cond-1" builderEx).edges.all
        (fun e => e.source != "cond-1" && e.target != "cond-1")) = true
    ∧ edgesClosed (deleteNode "cond-1" builderEx).nodes
        (deleteNode "cond-1" builderEx).edges = true :=
  ⟨by decide, (deleteNode_no_dangling_edges builderEx "cond-1").1,
    (deleteNode_no_dangling_edges builderEx "cond-1").2 (by decide)⟩

/-- C10: from any editor state whose canvas agrees with the history snapshot
at index `i > 0`, `undo` restores the snapshot at `i - 1` and decrements the
index, and a subsequent `redo` restores the snapshot at `i`, returning the
editor to its exact pre-undo state. -/
theorem undo_redo_roundtrip (s : BuilderState)
    (h0 : 0 < s.historyIndex) (h1 : s.historyIndex < s.history.length)
    (hn : s.nodes = (s.history.getD s.historyIndex { nodes := [], edges := [] }).nodes)
    (he : s.edges = (s.history.getD s.historyIndex { nodes := [], edges := [] }).edges) :
    (undo s).nodes
        = (s.history.getD (s.historyIndex - 1) { nodes := [], edges := [] }).nodes
    ∧ (undo s).edges
        = (s.history.getD (s.historyIndex - 1) { nodes := [], edges := [] }).edges
    ∧ (undo s).historyIndex = s.historyIndex - 1
    ∧ redo (undo s) = s := by
  obtain ⟨nodes, edges, history, historyIndex, sel, dirty, name, desc, vert, ver,
    stat, tags⟩ := s
  dsimp only at h0 h1 hn he ⊢
  unfold undo
  rw [if_pos h0]
  dsimp only
  refine ⟨rfl, rfl, rfl, ?_⟩
  unfold redo
  dsimp only
  rw [if_pos (by omega)]
  rw [show historyIndex - 1 + 1 = historyIndex from by omega]
  rw [← hn, ← he]

/-- Witness for `undo_redo_roundtrip` on a two-snapshot history with the
index on the second snapshot and the canvas in sync with it. -/
theorem undo_redo_roundtrip_witness :
    (0 < builderUndoEx.historyIndex
      ∧ builderUndoEx.historyIndex < builderUndoEx.history.length
      ∧ builderUndoEx.nodes
          = (builderUndoEx.history.getD builderUndoEx.historyIndex
              { nodes := [], edges := [] }).nodes
      ∧ builderUndoEx.edges
          = (builderUndoEx.history.getD builderUndoEx.historyIndex
              { nodes := [], edges := [] }).edges)
    ∧ redo (undo builderUndoEx) = builderUndoEx :=
  ⟨⟨by decide, by decide, by decide, by decide⟩,
    (undo_redo_roundtrip builderUndoEx (by decide) (by decide) (by decide)
      (by decide)).2.2.2⟩

end Super
